import Mathlib

/-!
Shallow embedding of the heradesk session-routing engine.

The definitions below are translated from the TypeScript source of the
repository: `ChatService` (src/unnamed/part_012), `QueueService`
(src/engine/src/services/QueueService.ts) and the websocket handlers
(src/engine/src/websocket/messages/cs.ts and customer.ts).

Modelling conventions:
* The Prisma store is a `Store` record of lists of rows.  Every primitive
  Prisma call of the source is one primitive operation on `Store`; the
  source has no `$transaction`, so a service function is the plain
  sequential composition of its primitive calls.
* Timestamps: the store carries a `clock`.  Every primitive write that
  takes a fresh timestamp (`new Date()` in the source, or the database
  `now()` default of `Message.createdAt`) reads the clock and advances it;
  this models the fact that consecutive statements execute at successive
  instants.
* Ids and customer tokens are `Nat`s drawn from counters in the store
  (the source draws random/unique strings; only freshness matters).
* Database result order: Prisma leaves the relative order of rows with
  equal `orderBy` keys unspecified; queries are modelled as stable
  insertion sorts of the table list, one legal database behaviour.
-/

namespace HeraDesk

/-- Session lifecycle status (Prisma enum `ChatStatus`). -/
inductive ChatStatus
  | waiting
  | active
  | resolved
  | abandoned
deriving DecidableEq, Repr

/-- Message sender type (Prisma enum `SenderType`). -/
inductive SenderType
  | customer
  | cs
  | system
deriving DecidableEq, Repr

/-- Message kind (Prisma enum `MessageType`). -/
inductive MessageType
  | text
  | image
  | file
  | system
deriving DecidableEq, Repr

/-- Agent presence state (Prisma enum `CsState`). -/
inductive CsState
  | online
  | offline
  | busy
deriving DecidableEq, Repr

/-- A row of the `Message` table. -/
structure Message where
  id : Nat
  sessionId : Nat
  senderType : SenderType
  senderId : Option Nat
  content : String
  messageType : MessageType
  createdAt : Nat
deriving DecidableEq, Repr

/-- A row of the `ChatSession` table. -/
structure ChatSession where
  id : Nat
  customerToken : Nat
  customerName : Option String
  customerEmail : Option String
  status : ChatStatus
  assignedCsId : Option Nat
  createdAt : Nat
  assignedAt : Option Nat
  resolvedAt : Option Nat
  rating : Option Nat
deriving DecidableEq, Repr

/-- A row of the `CsStatus` table (agent presence and capacity).
`currentChats` is a signed database integer: the source decrements it
with no lower bound. -/
structure CsStatusRow where
  userId : Nat
  status : CsState
  currentChats : Int
  maxChats : Int
  lastActiveAt : Nat
deriving DecidableEq, Repr

/-- A row of the `User` table (the fields the queue dispatcher reads). -/
structure UserRow where
  id : Nat
  name : String
  roleIsCs : Bool
  isActive : Bool
deriving DecidableEq, Repr

/-- The Prisma store: tables plus the id/token counters and the clock. -/
structure Store where
  users : List UserRow
  csStatuses : List CsStatusRow
  sessions : List ChatSession
  messages : List Message
  nextSessionId : Nat
  nextMessageId : Nat
  nextToken : Nat
  clock : Nat
deriving DecidableEq, Repr

/-- Model of `prisma.chatSession.findUnique({ where: { id } })`. -/
def findSession (st : Store) (sid : Nat) : Option ChatSession :=
  st.sessions.find? (fun s => s.id == sid)

/-- Model of `prisma.csStatus.findUnique({ where: { userId } })`. -/
def findCsStatus (st : Store) (uid : Nat) : Option CsStatusRow :=
  st.csStatuses.find? (fun c => c.userId == uid)

/-- Model of `prisma.chatSession.update({ where: { id } })`: rewrite the row with
the given id, leaving the other rows alone. -/
def updateSessionRow (st : Store) (sid : Nat) (f : ChatSession → ChatSession) :
    Store :=
  { st with sessions := st.sessions.map (fun s => if s.id == sid then f s else s) }

/-- Model of `prisma.csStatus.update({ where: { userId } })`. -/
def updateCsRow (st : Store) (uid : Nat) (f : CsStatusRow → CsStatusRow) :
    Store :=
  { st with csStatuses :=
      st.csStatuses.map (fun c => if c.userId == uid then f c else c) }

/-- Model of `prisma.message.create`: the new row takes the next id and the current
clock as its `createdAt` default, and the clock advances. -/
def appendMessage (st : Store) (sid : Nat) (ty : SenderType)
    (senderId : Option Nat) (content : String) (mty : MessageType) : Store :=
  { st with
    messages := st.messages ++
      [{ id := st.nextMessageId, sessionId := sid, senderType := ty,
         senderId := senderId, content := content, messageType := mty,
         createdAt := st.clock }],
    nextMessageId := st.nextMessageId + 1,
    clock := st.clock + 1 }

/-- All message rows of one session, in table (append) order. -/
def messagesOf (st : Store) (sid : Nat) : List Message :=
  st.messages.filter (fun m => m.sessionId == sid)

/-- Stable insertion of a message into a list ascending by `createdAt`. -/
def insertByCreatedAt (m : Message) : List Message → List Message
  | [] => [m]
  | x :: xs =>
      if m.createdAt ≤ x.createdAt then m :: x :: xs
      else x :: insertByCreatedAt m xs

/-- Model of `orderBy: { createdAt: "asc" }` on messages, modelled as a stable
insertion sort (a legal database ordering). -/
def sortByCreatedAt : List Message → List Message
  | [] => []
  | x :: xs => insertByCreatedAt x (sortByCreatedAt xs)

-- ============================================
-- ChatService (src/unnamed/part_012)
-- ============================================

/-- Model of `initChat`: create a `waiting` session with a fresh token, then create
the system welcome message. -/
def initChat (st : Store) (customerName customerEmail : Option String) :
    Store × Nat × Nat :=
  let sid := st.nextSessionId
  let tok := st.nextToken
  let t := st.clock
  let s : ChatSession :=
    { id := sid, customerToken := tok, customerName := customerName,
      customerEmail := customerEmail, status := ChatStatus.waiting,
      assignedCsId := none, createdAt := t, assignedAt := none,
      resolvedAt := none, rating := none }
  let st1 : Store :=
    { st with sessions := st.sessions ++ [s], nextSessionId := sid + 1,
              nextToken := tok + 1, clock := t + 1 }
  let st2 := appendMessage st1 sid SenderType.system none
    "Chat started. Waiting for customer service..." MessageType.system
  (st2, sid, tok)

/-- Model of `getSessionByToken`: look the session up by token and return it with
its messages ordered by `createdAt` ascending. -/
def getSessionByToken (st : Store) (token : Nat) :
    Option (ChatSession × List Message) :=
  (st.sessions.find? (fun s => s.customerToken == token)).map
    (fun s => (s, sortByCreatedAt (messagesOf st s.id)))

/-- Model of `assignChat`: update the session to `active` with the agent and a fresh
`assignedAt`, then increment the agent's `currentChats`, then create the
"has joined the chat" system message.  Three separate store operations, no
transaction, and no check of the session's current status. -/
def assignChat (st : Store) (sessionId csId : Nat) :
    Store × Option ChatSession :=
  match findSession st sessionId with
  | none => (st, none)
  | some s =>
      let t := st.clock
      let s1 : ChatSession :=
        { s with assignedCsId := some csId, status := ChatStatus.active,
                 assignedAt := some t }
      let st1 := updateSessionRow { st with clock := t + 1 } sessionId
        (fun x => { x with assignedCsId := some csId,
                           status := ChatStatus.active,
                           assignedAt := some t })
      let st2 := updateCsRow st1 csId
        (fun c => { c with currentChats := c.currentChats + 1 })
      let st3 := appendMessage st2 sessionId SenderType.system none
        "has joined the chat" MessageType.system
      (st3, some s1)

/-- Model of `resolveChat`: guarded only by `assignedCsId == csId` (the session's
status is not checked); then sets `resolved`/`resolvedAt`, decrements the
agent's `currentChats` and creates the "Chat has been resolved" system
message — as separate store operations. -/
def resolveChat (st : Store) (sessionId csId : Nat) :
    Store × Option ChatSession :=
  match findSession st sessionId with
  | none => (st, none)
  | some s =>
      if s.assignedCsId ≠ some csId then (st, none)
      else
        let t := st.clock
        let s1 : ChatSession :=
          { s with status := ChatStatus.resolved, resolvedAt := some t }
        let st1 := updateSessionRow { st with clock := t + 1 } sessionId
          (fun x => { x with status := ChatStatus.resolved,
                             resolvedAt := some t })
        let st2 := updateCsRow st1 csId
          (fun c => { c with currentChats := c.currentChats - 1 })
        let st3 := appendMessage st2 sessionId SenderType.system none
          "Chat has been resolved" MessageType.system
        (st3, some s1)

/-- Model of `endChat`: if the session is still `waiting` or `active`, mark it
`abandoned` with a fresh `resolvedAt`, decrement the assigned agent's
`currentChats` when present, and create the "Customer has left the chat"
system message; on a terminal session it returns the session unchanged. -/
def endChat (st : Store) (sessionId : Nat) : Store × Option ChatSession :=
  match findSession st sessionId with
  | none => (st, none)
  | some s =>
      if s.status = ChatStatus.waiting ∨ s.status = ChatStatus.active then
        let t := st.clock
        let s1 : ChatSession :=
          { s with status := ChatStatus.abandoned, resolvedAt := some t }
        let st1 := updateSessionRow { st with clock := t + 1 } sessionId
          (fun x => { x with status := ChatStatus.abandoned,
                             resolvedAt := some t })
        let st2 := match s.assignedCsId with
          | some uid => updateCsRow st1 uid
              (fun c => { c with currentChats := c.currentChats - 1 })
          | none => st1
        let st3 := appendMessage st2 sessionId SenderType.system none
          "Customer has left the chat" MessageType.system
        (st3, some s1)
      else (st, some s)

/-- Result of `sendMessage`. -/
structure SendMessageResult where
  success : Bool
  messageId : Option Nat
deriving DecidableEq, Repr

/-- Model of `sendMessage`: reject when the session is missing or terminal
("Chat has ended"), otherwise create the message row. -/
def sendMessage (st : Store) (sessionId : Nat) (senderType : SenderType)
    (content : String) (senderId : Option Nat) (messageType : MessageType) :
    Store × SendMessageResult :=
  match findSession st sessionId with
  | none => (st, { success := false, messageId := none })
  | some s =>
      if s.status ≠ ChatStatus.waiting ∧ s.status ≠ ChatStatus.active then
        (st, { success := false, messageId := none })
      else
        let mid := st.nextMessageId
        let st1 := appendMessage st sessionId senderType senderId content
          messageType
        (st1, { success := true, messageId := some mid })

-- ============================================
-- QueueService (src/engine/src/services/QueueService.ts)
-- ============================================

/-- A `user` row joined with its `csStatus` include, as read by
`autoAssignChat`. -/
structure AgentView where
  id : Nat
  name : String
  status : CsState
  currentChats : Int
  maxChats : Int
  lastActiveAt : Nat
deriving DecidableEq, Repr

/-- Stable insertion into a list ascending by `currentChats`. -/
def insertByChats (a : AgentView) : List AgentView → List AgentView
  | [] => [a]
  | x :: xs =>
      if a.currentChats ≤ x.currentChats then a :: x :: xs
      else x :: insertByChats a xs

/-- Model of `orderBy: { csStatus: { currentChats: "asc" } }`, modelled as a stable
insertion sort of the table order (a legal database ordering; the source
specifies no tie-break). -/
def sortByChats : List AgentView → List AgentView
  | [] => []
  | x :: xs => insertByChats x (sortByChats xs)

/-- The join `prisma.user.findMany({ where: { role: "cs", isActive: true,
csStatus: { status: "online" } }, include: { csStatus: true } })`, in table
order. -/
def csAgents (st : Store) : List AgentView :=
  st.users.filterMap (fun u =>
    if u.roleIsCs && u.isActive then
      (findCsStatus st u.id).bind (fun c =>
        if c.status = CsState.online then
          some { id := u.id, name := u.name, status := c.status,
                 currentChats := c.currentChats, maxChats := c.maxChats,
                 lastActiveAt := c.lastActiveAt }
        else none)
    else none)

/-- Model of `availableCS` of `autoAssignChat`: the online agents sorted ascending
by `currentChats`. -/
def availableCS (st : Store) : List AgentView :=
  sortByChats (csAgents st)

/-- Model of `csWithCapacity`: keep only agents with `currentChats < maxChats`. -/
def csWithCapacity (st : Store) : List AgentView :=
  (availableCS st).filter (fun a => a.currentChats < a.maxChats)

/-- Model of `autoAssignChat`: if the feature is enabled and some agent has
capacity, assign the session to the head of the sorted-filtered list. -/
def autoAssignChat (enabled : Bool) (st : Store) (sessionId : Nat) :
    Store × Option AgentView :=
  if !enabled then (st, none)
  else
    match csWithCapacity st with
    | [] => (st, none)
    | sel :: _ => ((assignChat st sessionId sel.id).1, some sel)

/-- Stable insertion into a list ascending by `createdAt` of sessions. -/
def insertSessionByCreatedAt (s : ChatSession) :
    List ChatSession → List ChatSession
  | [] => [s]
  | x :: xs =>
      if s.createdAt ≤ x.createdAt then s :: x :: xs
      else x :: insertSessionByCreatedAt s xs

/-- Model of `orderBy: { createdAt: "asc" }` on sessions, as a stable sort. -/
def sortSessionsByCreatedAt : List ChatSession → List ChatSession
  | [] => []
  | x :: xs => insertSessionByCreatedAt x (sortSessionsByCreatedAt xs)

/-- Model of `getWaitingChats`: the waiting sessions ordered by `createdAt`
ascending — the queue underlying `getQueue`. -/
def getWaitingChats (st : Store) : List ChatSession :=
  sortSessionsByCreatedAt
    (st.sessions.filter (fun s => s.status == ChatStatus.waiting))

/-- The body of `processQueue`'s loop: auto-assign each queued session in
turn, stopping at the first session that finds no agent. -/
def processQueueGo (enabled : Bool) : List Nat → Store → Store × Nat
  | [], st => (st, 0)
  | sid :: rest, st =>
      match autoAssignChat enabled st sid with
      | (st1, some _) =>
          let (st2, n) := processQueueGo enabled rest st1
          (st2, n + 1)
      | (st1, none) => (st1, 0)

/-- Model of `processQueue`: snapshot the queue, then try to auto-assign each item
until no agent is available. -/
def processQueue (enabled : Bool) (st : Store) : Store × Nat :=
  if !enabled then (st, 0)
  else processQueueGo enabled ((getWaitingChats st).map (fun s => s.id)) st

/-- The `createdAt` of the latest message of a session (the
`orderBy: { createdAt: "desc" }, take: 1` include of `checkIdleChats`). -/
def lastMessageTime (st : Store) (sid : Nat) : Option Nat :=
  match (messagesOf st sid).map (fun m => m.createdAt) with
  | [] => none
  | t :: ts => some (ts.foldl max t)

/-- The `findMany` filter of `checkIdleChats`: sessions still `waiting` or
`active` all of whose messages are strictly older than the threshold
(Prisma's `every`, vacuously true with no messages). -/
def idleCandidates (st : Store) (threshold : Nat) : List ChatSession :=
  st.sessions.filter (fun s =>
    (s.status == ChatStatus.waiting || s.status == ChatStatus.active) &&
    (messagesOf st s.id).all (fun m => m.createdAt < threshold))

/-- The loop-body re-check of `checkIdleChats`: the snapshot's last
message is absent or strictly older than the threshold.  `stOrig` is the
store the query ran against (the snapshot). -/
def reapInner (stOrig : Store) (threshold : Nat) (c : ChatSession) : Bool :=
  match lastMessageTime stOrig c.id with
  | none => true
  | some t => t < threshold

/-- One iteration of `checkIdleChats`' loop over a candidate `c`: when
`reapInner` holds, mark the session `abandoned` with a fresh
`resolvedAt`, decrement the assigned agent's `currentChats` when present,
and create the inactivity system message. -/
def reapStep (stOrig : Store) (threshold : Nat) (acc : Store × List Nat)
    (c : ChatSession) : Store × List Nat :=
  if reapInner stOrig threshold c then
    let stA := acc.1
    let t := stA.clock
    let st1 := updateSessionRow { stA with clock := t + 1 } c.id
      (fun x => { x with status := ChatStatus.abandoned,
                         resolvedAt := some t })
    let st2 := match c.assignedCsId with
      | some uid => updateCsRow st1 uid
          (fun r => { r with currentChats := r.currentChats - 1 })
      | none => st1
    let st3 := appendMessage st2 c.id SenderType.system none
      "Chat ditutup karena tidak ada aktivitas" MessageType.system
    (st3, acc.2 ++ [c.id])
  else acc

/-- Model of `checkIdleChats`: with `threshold = now - timeout`, abandon every
candidate session whose last message is strictly older than the
threshold.  Returns the updated store and the abandoned session ids. -/
def checkIdleChats (st : Store) (now timeout : Nat) : Store × List Nat :=
  let threshold := now - timeout
  (idleCandidates st threshold).foldl (reapStep st threshold) (st, [])

-- ============================================
-- Websocket handlers (src/engine/src/websocket/messages/*.ts)
-- ============================================

/-- Stable error codes sent in `system:error` frames. -/
inductive ErrCode
  | UNAUTHORIZED
  | NOT_ONLINE
  | AT_CAPACITY
  | SESSION_NOT_FOUND
  | ALREADY_ASSIGNED
  | INVALID_SESSION
  | END_FAILED
  | RESOLVE_FAILED
deriving DecidableEq, Repr

/-- Server-to-client frames relevant to the claims. -/
inductive Frame
  | errorFrame (code : ErrCode)
  | chatStarted (sessionId token : Nat)
  | chatAssigned (sessionId csId : Nat)
  | newAssigned (sessionId : Nat)
  | queuePos (sessionId pos : Nat)
  | queueNewChat (sessionId : Nat)
  | queueUpdateAssigned (sessionId : Nat)
  | chatEnded (sessionId : Nat)
  | resolvedFrame (sessionId : Nat)
  | chatAccepted (sessionId : Nat)
  | restored (sessionId : Nat) (status : ChatStatus)
      (assignedCsId : Option Nat) (messages : List Message)
deriving DecidableEq, Repr

/-- Outcome of `handleCsAcceptChat` on its own connection. -/
inductive AcceptOutcome
  | err (code : ErrCode)
  | accepted (sessionId : Nat)
deriving DecidableEq, Repr

/-- The read/check phase of `handleCsAcceptChat`, everything before the
`assignChat` call: agent must exist and be online, below capacity, and the
session must exist and still be `waiting` (else `ALREADY_ASSIGNED`).
Returns the error it would emit, or `none` when all checks pass. -/
def acceptChecks (st : Store) (uid sid : Nat) : Option ErrCode :=
  match findCsStatus st uid with
  | none => some ErrCode.NOT_ONLINE
  | some cs =>
      if cs.status ≠ CsState.online then some ErrCode.NOT_ONLINE
      else if cs.currentChats ≥ cs.maxChats then some ErrCode.AT_CAPACITY
      else
        match findSession st sid with
        | none => some ErrCode.SESSION_NOT_FOUND
        | some s =>
            if s.status ≠ ChatStatus.waiting then
              some ErrCode.ALREADY_ASSIGNED
            else none

/-- Model of `handleCsAcceptChat` run to completion with no interleaving: the
checks followed, when they pass, by the `assignChat` write phase. -/
def handleCsAcceptChat (st : Store) (uid sid : Nat) :
    Store × AcceptOutcome :=
  match acceptChecks st uid sid with
  | some e => (st, AcceptOutcome.err e)
  | none => ((assignChat st sid uid).1, AcceptOutcome.accepted sid)

/-- Model of `handleCsResolveChat`: `resolveChat`, then `RESOLVE_FAILED` on a null
result or the `chat:resolved` confirmation, then `processQueue`. -/
def handleCsResolveChat (enabled : Bool) (st : Store) (uid sid : Nat) :
    Store × List Frame :=
  match resolveChat st sid uid with
  | (st1, none) => (st1, [Frame.errorFrame ErrCode.RESOLVE_FAILED])
  | (st1, some _) =>
      ((processQueue enabled st1).1, [Frame.resolvedFrame sid])

/-- Model of `NotificationService.notifyChatAssigned` (the second
document of src/engine/src/routes/chat.ts): three topic publishes in
order — `chat:assigned` with the agent's identity on `session:<id>`,
`chat:new_assigned {sessionId}` on `cs:<csId>`, and `queue:update` with
action `assigned` on `queue`.  Returned as one frame list per topic, in
that order. -/
def notifyChatAssigned (sessionId csId : Nat) :
    List Frame × List Frame × List Frame :=
  ([Frame.chatAssigned sessionId csId],
   [Frame.newAssigned sessionId],
   [Frame.queueUpdateAssigned sessionId])

/-- Model of `NotificationService.notifyNewChatInQueue`: publishes
`queue:new_chat` on the `queue` topic.  (Its second publish,
`stats:new_chat`, goes to `admin:stats`; no admin connection is tracked
here.) -/
def notifyNewChatInQueue (sessionId : Nat) : List Frame :=
  [Frame.queueNewChat sessionId]

/-- Model of `handleCustomerStartChat`: `initChat`, then
`notifyNewChatInQueue` (heard by every agent on the `queue` topic), then
`autoAssignChat`.  In the assigned branch `autoAssignChat` subscribes the
agent to `session:<id>` before `notifyChatAssigned` publishes, and the
handler then sends `chat:assigned` directly to the customer; in the queue
branch it sends `chat:queue_position`; in both branches the
`chat:started` confirmation is the last send of the handler.  Returns the
store, the frames the customer connection receives in order (it is
subscribed to `session:<id>` only), and the frames the assigned agent's
connection receives in order (it is subscribed to `cs:<self>` and `queue`
at connect and to `session:<id>` during assignment). -/
def handleCustomerStartChat (enabled : Bool) (st : Store)
    (customerName customerEmail : Option String) :
    Store × List Frame × List Frame :=
  let r := initChat st customerName customerEmail
  let st1 := r.1
  let sid := r.2.1
  let tok := r.2.2
  let newChatFrames := notifyNewChatInQueue sid
  match autoAssignChat enabled st1 sid with
  | (st2, some sel) =>
      let n := notifyChatAssigned sid sel.id
      (st2,
       n.1 ++ [Frame.chatAssigned sid sel.id, Frame.chatStarted sid tok],
       newChatFrames ++ n.1 ++ n.2.1 ++ n.2.2)
  | (st2, none) =>
      let pos :=
        ((getWaitingChats st2).findIdx? (fun s => s.id == sid)).map
          (fun i => i + 1)
      (st2,
       [Frame.queuePos sid (pos.getD 1), Frame.chatStarted sid tok],
       newChatFrames)

/-- Model of `handleCustomerEndChat`: validate the session id against the
connection, call `endChat`, and emit `END_FAILED` on a null result or the
`chat:ended` confirmation. -/
def handleCustomerEndChat (st : Store) (wsSessionId : Option Nat)
    (sid : Nat) : Store × List Frame :=
  if wsSessionId ≠ some sid then
    (st, [Frame.errorFrame ErrCode.INVALID_SESSION])
  else
    match endChat st sid with
    | (st1, none) => (st1, [Frame.errorFrame ErrCode.END_FAILED])
    | (st1, some _) => (st1, [Frame.chatEnded sid])

/-- Model of `handleCustomerReconnect`: look the session up by token and emit one
`session:restored` frame with the session's status, assigned agent and
ordered messages; the store is not written. -/
def handleCustomerReconnect (st : Store) (token : Nat) :
    Store × List Frame :=
  match getSessionByToken st token with
  | none => (st, [Frame.errorFrame ErrCode.SESSION_NOT_FOUND])
  | some (s, msgs) =>
      (st, [Frame.restored s.id s.status s.assignedCsId msgs])

-- ============================================
-- Invariants and property checkers
-- ============================================

/-- Number of sessions with `status = active ∧ assigned_agent_id = uid`. -/
def countActiveAssigned (st : Store) (uid : Nat) : Int :=
  ((st.sessions.filter (fun s =>
      s.status == ChatStatus.active && s.assignedCsId == some uid)).length
    : Int)

/-- Invariant: `0 ≤ current_chats ≤ max_chats` for every agent row. -/
def capacityOkB (st : Store) : Bool :=
  st.csStatuses.all (fun c =>
    decide (0 ≤ c.currentChats) && decide (c.currentChats ≤ c.maxChats))

/-- Invariant: `current_chats` equals the count of active sessions assigned to the
agent, for every agent row. -/
def countsMatchB (st : Store) : Bool :=
  st.csStatuses.all (fun c =>
    c.currentChats == countActiveAssigned st c.userId)

/-- The agent's `currentChats`, when the row exists. -/
def currentChatsOf (st : Store) (uid : Nat) : Option Int :=
  (findCsStatus st uid).map (fun c => c.currentChats)

/-- The session's status, when the row exists. -/
def statusOf (st : Store) (sid : Nat) : Option ChatStatus :=
  (findSession st sid).map (fun s => s.status)

/-- The session's `resolvedAt`, when the row exists. -/
def resolvedAtOf (st : Store) (sid : Nat) : Option (Option Nat) :=
  (findSession st sid).map (fun s => s.resolvedAt)

/-- True when the session is terminal yet some of its messages has
`createdAt` strictly later than its `resolvedAt`. -/
def hasMessageAfterResolved (st : Store) (sid : Nat) : Bool :=
  match findSession st sid with
  | none => false
  | some s =>
      (s.status == ChatStatus.resolved || s.status == ChatStatus.abandoned)
      &&
      (match s.resolvedAt with
       | none => false
       | some r => (messagesOf st sid).any (fun m => r < m.createdAt))

/-- Position of the first frame satisfying `p`. -/
def frameIdx (p : Frame → Bool) (l : List Frame) : Option Nat :=
  l.findIdx? p

/-- Is this frame a `chat:started` frame? -/
def isStarted : Frame → Bool
  | Frame.chatStarted _ _ => true
  | _ => false

/-- Is this frame a `chat:assigned` frame? -/
def isAssigned : Frame → Bool
  | Frame.chatAssigned _ _ => true
  | _ => false

/-- True when the frame list contains a `chat:started` frame strictly
before its first `chat:assigned` frame. -/
def startedBeforeAssigned (l : List Frame) : Bool :=
  match frameIdx isStarted l, frameIdx isAssigned l with
  | some i, some j => i < j
  | _, _ => false

-- ============================================
-- Concrete scenarios
-- ============================================

/-- A fresh waiting session row. -/
def waitingSession (sid tok t : Nat) : ChatSession :=
  { id := sid, customerToken := tok, customerName := none,
    customerEmail := none, status := ChatStatus.waiting,
    assignedCsId := none, createdAt := t, assignedAt := none,
    resolvedAt := none, rating := none }

/-- An active session row assigned to an agent. -/
def activeSession (sid tok csId t : Nat) : ChatSession :=
  { id := sid, customerToken := tok, customerName := none,
    customerEmail := none, status := ChatStatus.active,
    assignedCsId := some csId, createdAt := t, assignedAt := some t,
    resolvedAt := none, rating := none }

/-- An agent presence row. -/
def csRow (uid : Nat) (st : CsState) (cur maxC : Int) (lastA : Nat) :
    CsStatusRow :=
  { userId := uid, status := st, currentChats := cur, maxChats := maxC,
    lastActiveAt := lastA }

/-- An active cs-role user row. -/
def csUser (uid : Nat) (nm : String) : UserRow :=
  { id := uid, name := nm, roleIsCs := true, isActive := true }

/-- Two online agents with capacity 1 and a single waiting session. -/
def raceStore : Store :=
  { users := [csUser 1 "A1", csUser 2 "A2"],
    csStatuses := [csRow 1 CsState.online 0 1 0, csRow 2 CsState.online 0 1 0],
    sessions := [waitingSession 10 100 0],
    messages := [], nextSessionId := 11, nextMessageId := 0,
    nextToken := 101, clock := 5 }

/-- The store after the interleaving in which both agents pass the
check phase of `handleCsAcceptChat` on `raceStore` (both reads see the
session still `waiting`) and then both run the `assignChat` write
phase. -/
def raceFinal : Store :=
  (assignChat (assignChat raceStore 10 1).1 10 2).1

/-- One agent with one active chat, about to resolve it twice. -/
def resolveTwiceStore : Store :=
  { users := [csUser 1 "A"],
    csStatuses := [csRow 1 CsState.online 1 5 0],
    sessions := [activeSession 10 100 1 0],
    messages := [], nextSessionId := 11, nextMessageId := 0,
    nextToken := 101, clock := 5 }

/-- The store after the agent's first `cs:resolve_chat`. -/
def afterResolve1 : Store :=
  (handleCsResolveChat true resolveTwiceStore 1 10).1

/-- The store after the agent's duplicate `cs:resolve_chat`. -/
def afterResolve2 : Store :=
  (handleCsResolveChat true afterResolve1 1 10).1

/-- Two online agents tied at `currentChats = 0`; agent 2 has the
strictly earlier `lastActiveAt`. -/
def tieStore : Store :=
  { users := [csUser 1 "A1", csUser 2 "A2"],
    csStatuses := [csRow 1 CsState.online 0 5 100, csRow 2 CsState.online 0 5 50],
    sessions := [waitingSession 10 100 0],
    messages := [], nextSessionId := 11, nextMessageId := 0,
    nextToken := 101, clock := 5 }

/-- An active assigned session whose last message is at time 100. -/
def idleStore : Store :=
  { users := [csUser 1 "A"],
    csStatuses := [csRow 1 CsState.online 1 5 0],
    sessions := [activeSession 10 100 1 0],
    messages := [{ id := 0, sessionId := 10, senderType := SenderType.customer,
                   senderId := none, content := "hi",
                   messageType := MessageType.text, createdAt := 100 }],
    nextSessionId := 11, nextMessageId := 1, nextToken := 101, clock := 2000 }

/-- An empty store with one free online agent, about to receive
`customer:start_chat`. -/
def startStore : Store :=
  { users := [csUser 1 "A"],
    csStatuses := [csRow 1 CsState.online 0 5 0],
    sessions := [], messages := [], nextSessionId := 10,
    nextMessageId := 0, nextToken := 100, clock := 0 }

/-- The start_chat handler's run on `startStore`. -/
def startRun : Store × List Frame × List Frame :=
  handleCustomerStartChat true startStore (some "Ada") none

-- ============================================
-- Claim theorems: counterexamples and code-bug evaluations
-- ============================================

/-- C1: the accept path is not atomic.  On `raceStore` both agents pass
the check phase of `handleCsAcceptChat` (each read sees the session still
`waiting`), so in the interleaving check(A1); check(A2); write(A1);
write(A2) both accepts succeed: neither receives `ALREADY_ASSIGNED`, both
agents' `current_chats` are incremented, the session ends assigned to
agent 2, and agent 1 is left with `current_chats = 1` but no active
session.  Only a fully sequential second accept (last conjunct) sees
`ALREADY_ASSIGNED`. -/
theorem accept_chat_not_atomic :
    acceptChecks raceStore 1 10 = none ∧
    acceptChecks raceStore 2 10 = none ∧
    statusOf raceFinal 10 = some ChatStatus.active ∧
    (findSession raceFinal 10).map (fun s => s.assignedCsId) =
      some (some 2) ∧
    currentChatsOf raceFinal 1 = some 1 ∧
    currentChatsOf raceFinal 2 = some 1 ∧
    countActiveAssigned raceFinal 1 = 0 ∧
    countsMatchB raceStore = true ∧
    countsMatchB raceFinal = false ∧
    handleCsAcceptChat (handleCsAcceptChat raceStore 1 10).1 2 10 =
      ((handleCsAcceptChat raceStore 1 10).1,
        AcceptOutcome.err ErrCode.ALREADY_ASSIGNED) := by
  decide

/-- C2: the capacity invariant is not preserved.  `resolveTwiceStore`
satisfies `0 ≤ current_chats ≤ max_chats` and the active-count equation;
after the agent resolves its single chat twice (the duplicate passes
`resolveChat`'s only guard, `assignedCsId = csId`), its `current_chats`
is `-1`, violating `0 ≤ current_chats`. -/
theorem current_chats_goes_negative :
    capacityOkB resolveTwiceStore = true ∧
    countsMatchB resolveTwiceStore = true ∧
    capacityOkB afterResolve1 = true ∧
    countsMatchB afterResolve1 = true ∧
    currentChatsOf afterResolve2 1 = some (-1) ∧
    capacityOkB afterResolve2 = false := by
  decide

/-- C3: a duplicate `cs:resolve_chat` by the same agent does not fail:
`resolveChat` checks only `assignedCsId`, not the status, so the second
call returns the session (no error frame), rewrites `resolvedAt` (5 on
the first call, 7 on the second), appends another "Chat has been
resolved" system message, and decrements `current_chats` again. -/
theorem duplicate_resolve_succeeds :
    (handleCsResolveChat true resolveTwiceStore 1 10).2 =
      [Frame.resolvedFrame 10] ∧
    (resolveChat afterResolve1 10 1).2.isSome = true ∧
    (handleCsResolveChat true afterResolve1 1 10).2 =
      [Frame.resolvedFrame 10] ∧
    resolvedAtOf afterResolve1 10 = some (some 5) ∧
    resolvedAtOf afterResolve2 10 = some (some 7) ∧
    (messagesOf afterResolve2 10).length =
      (messagesOf afterResolve1 10).length + 1 ∧
    currentChatsOf afterResolve2 1 = some (-1) := by
  decide

/-- C4: after a single legitimate resolve, the session is terminal with
`resolvedAt = 5` while the "Chat has been resolved" system message —
created by a separate, later store operation of the same transition —
carries `createdAt = 6 > resolvedAt`.  Ordinary message append on the
terminal session is indeed rejected and leaves the store unchanged. -/
theorem message_created_after_resolved_at :
    statusOf afterResolve1 10 = some ChatStatus.resolved ∧
    hasMessageAfterResolved afterResolve1 10 = true ∧
    (sendMessage afterResolve1 10 SenderType.customer "hello" none
      MessageType.text).2.success = false ∧
    (sendMessage afterResolve1 10 SenderType.customer "hello" none
      MessageType.text).1 = afterResolve1 := by
  decide

/-- C5 counterexample: on `tieStore` both agents are available with
`currentChats = 0`, agent 2's `lastActiveAt = 50` is strictly earlier
than agent 1's `100`, yet the dispatcher picks agent 1: the query orders
by `currentChats` only and no `last_active_at` tie-break exists. -/
theorem auto_assign_no_last_active_tiebreak :
    (csWithCapacity tieStore).map
      (fun a => (a.id, a.currentChats, a.lastActiveAt)) =
      [(1, 0, 100), (2, 0, 50)] ∧
    ((autoAssignChat true tieStore 10).2.map (fun a => a.id)) = some 1 := by
  decide

/-- C6 counterexample: the reaper run at `now = last_message_at +
idle_timeout` (1900 = 100 + 1800) abandons nothing — the comparison is
strict (`createdAt < now - timeout`) — leaving the session `active` and
the store untouched, while the claim requires the transition to fire at
exactly that instant. -/
theorem idle_reaper_boundary_not_abandoned :
    lastMessageTime idleStore 10 = some 100 ∧
    (checkIdleChats idleStore 1900 1800).2 = [] ∧
    statusOf (checkIdleChats idleStore 1900 1800).1 10 =
      some ChatStatus.active ∧
    (checkIdleChats idleStore 1900 1800).1 = idleStore := by
  decide

/-- C8 counterexample: on `startStore` the immediately auto-assigned
start_chat delivers `chat:assigned` (topic publish and direct send)
strictly before the final `chat:started` confirmation, so `chat:started`
does not precede `chat:assigned`; the agent's connection receives
`queue:new_chat`, then the session-topic `chat:assigned`, then
`chat:new_assigned` with the session id, then the `queue:update`
publish. -/
theorem chat_started_sent_after_assigned :
    startRun.2.1 = [Frame.chatAssigned 10 1, Frame.chatAssigned 10 1,
      Frame.chatStarted 10 100] ∧
    startedBeforeAssigned startRun.2.1 = false ∧
    startRun.2.2 = [Frame.queueNewChat 10, Frame.chatAssigned 10 1,
      Frame.newAssigned 10, Frame.queueUpdateAssigned 10] := by
  decide

-- ============================================
-- Confirmed claims: C9, C10
-- ============================================

/-- C9: when the acting agent is online with `current_chats = max_chats`,
`handleCsAcceptChat` fails with `AT_CAPACITY` and the store — hence both
the agent's `current_chats` and the target session — is unchanged.  The
capacity check precedes the session lookup, so this holds for every
target session id. -/
theorem accept_at_capacity_rejected (st : Store) (uid sid : Nat)
    (cs : CsStatusRow) (h1 : findCsStatus st uid = some cs)
    (h2 : cs.status = CsState.online)
    (h3 : cs.currentChats = cs.maxChats) :
    handleCsAcceptChat st uid sid =
      (st, AcceptOutcome.err ErrCode.AT_CAPACITY) := by
  unfold handleCsAcceptChat acceptChecks
  rw [h1]
  simp [h2, h3]

/-- An online agent already holding `max_chats = 5` chats, plus a waiting
session it might try to accept. -/
def fullAgentStore : Store :=
  { users := [csUser 1 "A"],
    csStatuses := [csRow 1 CsState.online 5 5 0],
    sessions := [waitingSession 10 100 0],
    messages := [], nextSessionId := 11, nextMessageId := 0,
    nextToken := 101, clock := 5 }

/-- Witness for C9 at a concrete store. -/
theorem accept_at_capacity_rejected_witness :
    handleCsAcceptChat fullAgentStore 1 10 =
      (fullAgentStore, AcceptOutcome.err ErrCode.AT_CAPACITY) :=
  accept_at_capacity_rejected fullAgentStore 1 10
    (csRow 1 CsState.online 5 5 0) (by decide) rfl rfl

/-- C10: on a session already in a terminal state, `endChat` returns the
existing session with the store untouched (so no field changes, no system
message, no `current_chats` decrement), and the customer end-chat handler
emits the plain `chat:ended` confirmation rather than an error frame. -/
theorem end_chat_terminal_noop (st : Store) (sid : Nat) (s : ChatSession)
    (h1 : findSession st sid = some s)
    (h2 : s.status = ChatStatus.resolved ∨ s.status = ChatStatus.abandoned) :
    endChat st sid = (st, some s) ∧
    handleCustomerEndChat st (some sid) sid = (st, [Frame.chatEnded sid]) := by
  have hcond : ¬(s.status = ChatStatus.waiting ∨
      s.status = ChatStatus.active) := by
    rcases h2 with h | h <;> simp [h]
  have hend : endChat st sid = (st, some s) := by
    unfold endChat
    rw [h1]
    simp [hcond]
  refine ⟨hend, ?_⟩
  unfold handleCustomerEndChat
  simp [hend]

/-- A store holding one resolved session (and the agent that resolved
it). -/
def terminalStore : Store :=
  { users := [csUser 1 "A"],
    csStatuses := [csRow 1 CsState.online 0 5 0],
    sessions := [{ id := 10, customerToken := 100, customerName := none,
                   customerEmail := none, status := ChatStatus.resolved,
                   assignedCsId := some 1, createdAt := 0,
                   assignedAt := some 1, resolvedAt := some 2,
                   rating := none }],
    messages := [], nextSessionId := 11, nextMessageId := 0,
    nextToken := 101, clock := 5 }

/-- Witness for C10 at a concrete store. -/
theorem end_chat_terminal_noop_witness :
    endChat terminalStore 10 =
      (terminalStore, findSession terminalStore 10) ∧
    handleCustomerEndChat terminalStore (some 10) 10 =
      (terminalStore, [Frame.chatEnded 10]) := by
  have h := end_chat_terminal_noop terminalStore 10
    { id := 10, customerToken := 100, customerName := none,
      customerEmail := none, status := ChatStatus.resolved,
      assignedCsId := some 1, createdAt := 0, assignedAt := some 1,
      resolvedAt := some 2, rating := none }
    (by decide) (Or.inl rfl)
  exact ⟨h.1.trans (by decide), h.2⟩

-- ============================================
-- Confirmed claim C7: reconnect replays the transcript
-- ============================================

/-- The list is in chronological (non-decreasing `createdAt`) order —
the order in which `appendMessage` stores messages, since each append
stamps the advancing clock. -/
def chronological : List Message → Bool
  | [] => true
  | [_] => true
  | a :: b :: l =>
      decide (a.createdAt ≤ b.createdAt) && chronological (b :: l)

/-- The stable sort by `createdAt` leaves a chronological list as it
is. -/
theorem sortByCreatedAt_eq_self :
    ∀ l : List Message, chronological l = true → sortByCreatedAt l = l
  | [], _ => rfl
  | [_], _ => rfl
  | a :: b :: l, h => by
      have h' := h
      unfold chronological at h'
      rw [Bool.and_eq_true] at h'
      have hab : a.createdAt ≤ b.createdAt := of_decide_eq_true h'.1
      have ih := sortByCreatedAt_eq_self (b :: l) h'.2
      unfold sortByCreatedAt
      rw [ih]
      unfold insertByCreatedAt
      simp [hab]

/-- C7: a customer reconnect with a valid token emits exactly one
`session:restored` frame whose message list is the full persisted
transcript of the session in store order, and the store — in particular
the session's status — is unchanged. -/
theorem reconnect_restores_transcript (st : Store) (token : Nat)
    (s : ChatSession) (msgs : List Message)
    (h : getSessionByToken st token = some (s, msgs))
    (hchron : chronological (messagesOf st s.id) = true) :
    handleCustomerReconnect st token =
      (st, [Frame.restored s.id s.status s.assignedCsId
        (messagesOf st s.id)]) := by
  have hmsgs : msgs = messagesOf st s.id := by
    unfold getSessionByToken at h
    cases hfind : st.sessions.find? (fun x => x.customerToken == token) with
    | none => rw [hfind] at h; simp at h
    | some s' =>
        rw [hfind] at h
        simp only [Option.map_some'] at h
        have h1 : s' = s := congrArg Prod.fst (Option.some.inj h)
        have h2 : sortByCreatedAt (messagesOf st s'.id) = msgs :=
          congrArg Prod.snd (Option.some.inj h)
        rw [h1] at h2
        rw [← h2, sortByCreatedAt_eq_self _ hchron]
  unfold handleCustomerReconnect
  rw [h, hmsgs]

/-- A store with one active session and a three-message transcript. -/
def transcriptStore : Store :=
  { users := [csUser 1 "A"],
    csStatuses := [csRow 1 CsState.online 1 5 0],
    sessions := [activeSession 10 100 1 0],
    messages :=
      [{ id := 0, sessionId := 10, senderType := SenderType.system,
         senderId := none, content := "Chat started. Waiting for customer service...",
         messageType := MessageType.system, createdAt := 1 },
       { id := 1, sessionId := 10, senderType := SenderType.customer,
         senderId := none, content := "hello", messageType := MessageType.text,
         createdAt := 2 },
       { id := 2, sessionId := 10, senderType := SenderType.cs,
         senderId := some 1, content := "hi", messageType := MessageType.text,
         createdAt := 4 }],
    nextSessionId := 11, nextMessageId := 3, nextToken := 101, clock := 5 }

/-- Witness for C7 at a concrete store. -/
theorem reconnect_restores_transcript_witness :
    handleCustomerReconnect transcriptStore 100 =
      (transcriptStore,
       [Frame.restored 10 ChatStatus.active (some 1)
         (messagesOf transcriptStore 10)]) :=
  reconnect_restores_transcript transcriptStore 100
    (activeSession 10 100 1 0) (messagesOf transcriptStore 10)
    (by decide) (by decide)

-- ============================================
-- Corrected claim C5: least-loaded selection, no last_active tie-break
-- ============================================

/-- Membership is preserved by `insertByChats`. -/
theorem mem_insertByChats {a y : AgentView} :
    ∀ {l : List AgentView}, y ∈ insertByChats a l ↔ y = a ∨ y ∈ l := by
  intro l
  induction l with
  | nil => simp [insertByChats]
  | cons x xs ih =>
      unfold insertByChats
      split
      · simp [List.mem_cons]
      · simp only [List.mem_cons, ih]
        tauto

/-- Membership is preserved by `sortByChats`. -/
theorem mem_sortByChats {y : AgentView} :
    ∀ {l : List AgentView}, y ∈ sortByChats l ↔ y ∈ l := by
  intro l
  induction l with
  | nil => simp [sortByChats]
  | cons x xs ih =>
      unfold sortByChats
      rw [mem_insertByChats]
      simp [ih]

/-- Lemma: `insertByChats` keeps the list ordered by `currentChats`. -/
theorem pairwise_insertByChats (a : AgentView) :
    ∀ {l : List AgentView},
      l.Pairwise (fun x y => x.currentChats ≤ y.currentChats) →
      (insertByChats a l).Pairwise
        (fun x y => x.currentChats ≤ y.currentChats) := by
  intro l
  induction l with
  | nil => intro _; simp [insertByChats]
  | cons x xs ih =>
      intro h
      rw [List.pairwise_cons] at h
      unfold insertByChats
      split
      · rename_i hax
        rw [List.pairwise_cons]
        refine ⟨?_, List.pairwise_cons.mpr h⟩
        intro y hy
        rcases List.mem_cons.mp hy with rfl | hy'
        · exact hax
        · exact le_trans hax (h.1 y hy')
      · rename_i hax
        rw [List.pairwise_cons]
        refine ⟨?_, ih h.2⟩
        intro y hy
        rcases mem_insertByChats.mp hy with rfl | hy'
        · exact le_of_lt (lt_of_not_le hax)
        · exact h.1 y hy'

/-- Lemma: `sortByChats` produces a list ordered by `currentChats`. -/
theorem pairwise_sortByChats :
    ∀ l : List AgentView,
      (sortByChats l).Pairwise (fun x y => x.currentChats ≤ y.currentChats)
  | [] => List.Pairwise.nil
  | x :: xs => pairwise_insertByChats x (pairwise_sortByChats xs)

/-- Every agent produced by the `autoAssignChat` query is online. -/
theorem csAgents_online (st : Store) :
    ∀ v ∈ csAgents st, v.status = CsState.online := by
  intro v hv
  unfold csAgents at hv
  rw [List.mem_filterMap] at hv
  obtain ⟨u, _, hf⟩ := hv
  by_cases hru : (u.roleIsCs && u.isActive) = true
  · rw [if_pos hru] at hf
    rw [Option.bind_eq_some] at hf
    obtain ⟨c, _, hc⟩ := hf
    by_cases hon : c.status = CsState.online
    · rw [if_pos hon] at hc
      cases hc
      exact hon
    · rw [if_neg hon] at hc
      cases hc
  · rw [if_neg hru] at hf
    cases hf

/-- C5 (amended): when some agent has free capacity, `autoAssignChat`
selects an online agent with free capacity whose `currentChats` is
minimal among all such agents; no `last_active_at` tie-break is
applied. -/
theorem auto_assign_selects_least_loaded (st : Store) (sid : Nat)
    (v : AgentView) (rest : List AgentView)
    (h : csWithCapacity st = v :: rest) :
    (autoAssignChat true st sid).2 = some v ∧
    v.status = CsState.online ∧
    v.currentChats < v.maxChats ∧
    ∀ b ∈ csWithCapacity st, v.currentChats ≤ b.currentChats := by
  have hv : v ∈ csWithCapacity st := by
    rw [h]; exact List.mem_cons_self _ _
  refine ⟨?_, ?_, ?_, ?_⟩
  · unfold autoAssignChat
    rw [h]
    rfl
  · have h1 : v ∈ availableCS st := List.mem_of_mem_filter hv
    exact csAgents_online st v (mem_sortByChats.mp h1)
  · have hv2 : v ∈ List.filter (fun a => decide (a.currentChats < a.maxChats))
        (availableCS st) := hv
    exact of_decide_eq_true (List.mem_filter.mp hv2).2
  · intro b hb
    have hp : (csWithCapacity st).Pairwise
        (fun x y => x.currentChats ≤ y.currentChats) :=
      (pairwise_sortByChats (csAgents st)).sublist
        (List.filter_sublist _)
    rw [h] at hp hb
    rcases List.mem_cons.mp hb with rfl | hb'
    · exact le_refl _
    · exact (List.pairwise_cons.mp hp).1 b hb'

/-- Witness for the amended C5 at the concrete tie store. -/
theorem auto_assign_selects_least_loaded_witness :
    (autoAssignChat true tieStore 10).2 =
      some { id := 1, name := "A1", status := CsState.online,
             currentChats := 0, maxChats := 5, lastActiveAt := 100 } ∧
    ∀ b ∈ csWithCapacity tieStore,
      (0 : Int) ≤ b.currentChats := by
  have h := auto_assign_selects_least_loaded tieStore 10
    { id := 1, name := "A1", status := CsState.online,
      currentChats := 0, maxChats := 5, lastActiveAt := 100 }
    [{ id := 2, name := "A2", status := CsState.online,
       currentChats := 0, maxChats := 5, lastActiveAt := 50 }]
    (by decide)
  exact ⟨h.1, h.2.2.2⟩

-- ============================================
-- Corrected claim C8: frame order on auto-assigned start_chat
-- ============================================

/-- C8 (amended): whenever `customer:start_chat` is immediately
auto-assigned, the customer connection receives the `chat:assigned`
frames (topic publish and the handler's direct send) strictly before the
closing `chat:started` confirmation — `chat:started` is the handler's
last send — and the assigned agent's connection receives
`chat:new_assigned` with the session id (preceded by `queue:new_chat`
and the session-topic `chat:assigned`, and followed by the
`queue:update` publish). -/
theorem start_chat_assigned_before_started (st : Store)
    (customerName customerEmail : Option String) (st2 : Store)
    (sel : AgentView)
    (h : autoAssignChat true (initChat st customerName customerEmail).1
        (initChat st customerName customerEmail).2.1 = (st2, some sel)) :
    (handleCustomerStartChat true st customerName customerEmail).2.1 =
      [Frame.chatAssigned (initChat st customerName customerEmail).2.1
         sel.id,
       Frame.chatAssigned (initChat st customerName customerEmail).2.1
         sel.id,
       Frame.chatStarted (initChat st customerName customerEmail).2.1
         (initChat st customerName customerEmail).2.2] ∧
    startedBeforeAssigned
      (handleCustomerStartChat true st customerName customerEmail).2.1 =
      false ∧
    (handleCustomerStartChat true st customerName customerEmail).2.2 =
      [Frame.queueNewChat (initChat st customerName customerEmail).2.1,
       Frame.chatAssigned (initChat st customerName customerEmail).2.1
         sel.id,
       Frame.newAssigned (initChat st customerName customerEmail).2.1,
       Frame.queueUpdateAssigned
         (initChat st customerName customerEmail).2.1] := by
  have hrun : handleCustomerStartChat true st customerName customerEmail =
      (st2,
       [Frame.chatAssigned (initChat st customerName customerEmail).2.1
          sel.id,
        Frame.chatAssigned (initChat st customerName customerEmail).2.1
          sel.id,
        Frame.chatStarted (initChat st customerName customerEmail).2.1
          (initChat st customerName customerEmail).2.2],
       [Frame.queueNewChat (initChat st customerName customerEmail).2.1,
        Frame.chatAssigned (initChat st customerName customerEmail).2.1
          sel.id,
        Frame.newAssigned (initChat st customerName customerEmail).2.1,
        Frame.queueUpdateAssigned
          (initChat st customerName customerEmail).2.1]) := by
    unfold handleCustomerStartChat
    simp only [h, notifyChatAssigned, notifyNewChatInQueue]
    rfl
  refine ⟨?_, ?_, ?_⟩
  · rw [hrun]
  · rw [hrun]
    rfl
  · rw [hrun]

/-- Witness for the amended C8 at the concrete start store. -/
theorem start_chat_assigned_before_started_witness :
    (handleCustomerStartChat true startStore (some "Ada") none).2.1 =
      [Frame.chatAssigned 10 1, Frame.chatAssigned 10 1,
       Frame.chatStarted 10 100] ∧
    startedBeforeAssigned
      (handleCustomerStartChat true startStore (some "Ada") none).2.1 =
      false ∧
    (handleCustomerStartChat true startStore (some "Ada") none).2.2 =
      [Frame.queueNewChat 10, Frame.chatAssigned 10 1,
       Frame.newAssigned 10, Frame.queueUpdateAssigned 10] := by
  have h := start_chat_assigned_before_started startStore (some "Ada") none
    (autoAssignChat true (initChat startStore (some "Ada") none).1
      (initChat startStore (some "Ada") none).2.1).1
    { id := 1, name := "A", status := CsState.online, currentChats := 0,
      maxChats := 5, lastActiveAt := 0 }
    (by decide)
  exact h

-- ============================================
-- Corrected claim C6: the reaper threshold is strict
-- ============================================

/-- Lemma: `find?` by id over a per-id row rewrite of OTHER ids is unchanged. -/
theorem find?_update_ne (sid sid' : Nat) (f : ChatSession → ChatSession)
    (hf : ∀ s, (f s).id = s.id) (h : sid' ≠ sid) :
    ∀ l : List ChatSession,
      (l.map (fun s => if s.id == sid then f s else s)).find?
          (fun s => s.id == sid') =
        l.find? (fun s => s.id == sid')
  | [] => rfl
  | s :: l => by
      simp only [List.map_cons]
      by_cases hs : s.id = sid
      · have hgs : (if s.id == sid then f s else s) = f s :=
          if_pos (beq_iff_eq.mpr hs)
        have hpfs : ¬(((f s).id == sid') = true) := by
          rw [hf s]
          intro hx
          have hx' := beq_iff_eq.mp hx
          omega
        have hps : ¬((s.id == sid') = true) := by
          intro hx
          have hx' := beq_iff_eq.mp hx
          omega
        have e1 : List.find? (fun x => x.id == sid')
            (f s :: (l.map (fun x => if x.id == sid then f x else x))) =
            List.find? (fun x => x.id == sid')
              (l.map (fun x => if x.id == sid then f x else x)) :=
          List.find?_cons_of_neg _ hpfs
        have e2 : List.find? (fun x => x.id == sid') (s :: l) =
            List.find? (fun x => x.id == sid') l :=
          List.find?_cons_of_neg _ hps
        rw [hgs, e1, e2]
        exact find?_update_ne sid sid' f hf h l
      · have hgs : (if s.id == sid then f s else s) = s :=
          if_neg (fun hx => hs (beq_iff_eq.mp hx))
        rw [hgs]
        by_cases hs' : s.id = sid'
        · have hpp : ((s.id == sid') = true) := beq_iff_eq.mpr hs'
          have e1 : List.find? (fun x => x.id == sid')
              (s :: (l.map (fun x => if x.id == sid then f x else x))) =
              some s := List.find?_cons_of_pos _ hpp
          have e2 : List.find? (fun x => x.id == sid') (s :: l) =
              some s := List.find?_cons_of_pos _ hpp
          rw [e1, e2]
        · have hpp : ¬((s.id == sid') = true) :=
            fun hx => hs' (beq_iff_eq.mp hx)
          have e1 : List.find? (fun x => x.id == sid')
              (s :: (l.map (fun x => if x.id == sid then f x else x))) =
              List.find? (fun x => x.id == sid')
                (l.map (fun x => if x.id == sid then f x else x)) :=
            List.find?_cons_of_neg _ hpp
          have e2 : List.find? (fun x => x.id == sid') (s :: l) =
              List.find? (fun x => x.id == sid') l :=
            List.find?_cons_of_neg _ hpp
          rw [e1, e2]
          exact find?_update_ne sid sid' f hf h l

/-- Lemma: `find?` by id over a per-id row rewrite of THE id maps the result. -/
theorem find?_update_self (sid : Nat) (f : ChatSession → ChatSession)
    (hf : ∀ s, (f s).id = s.id) :
    ∀ l : List ChatSession,
      (l.map (fun s => if s.id == sid then f s else s)).find?
          (fun s => s.id == sid) =
        (l.find? (fun s => s.id == sid)).map f
  | [] => rfl
  | s :: l => by
      simp only [List.map_cons]
      by_cases hs : s.id = sid
      · have hgs : (if s.id == sid then f s else s) = f s :=
          if_pos (beq_iff_eq.mpr hs)
        have hpfs : ((f s).id == sid) = true := by
          rw [hf s]; exact beq_iff_eq.mpr hs
        have e1 : List.find? (fun x => x.id == sid)
            (f s :: (l.map (fun x => if x.id == sid then f x else x))) =
            some (f s) := List.find?_cons_of_pos _ hpfs
        have e2 : List.find? (fun x => x.id == sid) (s :: l) = some s :=
          List.find?_cons_of_pos _ (beq_iff_eq.mpr hs)
        rw [hgs, e1, e2]
        rfl
      · have hgs : (if s.id == sid then f s else s) = s :=
          if_neg (fun hx => hs (beq_iff_eq.mp hx))
        have hpp : ¬((s.id == sid) = true) :=
          fun hx => hs (beq_iff_eq.mp hx)
        have e1 : List.find? (fun x => x.id == sid)
            (s :: (l.map (fun x => if x.id == sid then f x else x))) =
            List.find? (fun x => x.id == sid)
              (l.map (fun x => if x.id == sid then f x else x)) :=
          List.find?_cons_of_neg _ hpp
        have e2 : List.find? (fun x => x.id == sid) (s :: l) =
            List.find? (fun x => x.id == sid) l :=
          List.find?_cons_of_neg _ hpp
        rw [hgs, e1, e2]
        exact find?_update_self sid f hf l

/-- Lemma: `updateSessionRow` at a different id does not change `findSession`. -/
theorem findSession_updateSessionRow_ne (st : Store) (sid sid' : Nat)
    (f : ChatSession → ChatSession) (hf : ∀ s, (f s).id = s.id)
    (h : sid' ≠ sid) :
    findSession (updateSessionRow st sid f) sid' = findSession st sid' := by
  unfold findSession updateSessionRow
  exact find?_update_ne sid sid' f hf h st.sessions

/-- Lemma: `updateSessionRow` at the queried id maps the found row. -/
theorem findSession_updateSessionRow_self (st : Store) (sid : Nat)
    (f : ChatSession → ChatSession) (hf : ∀ s, (f s).id = s.id) :
    findSession (updateSessionRow st sid f) sid =
      (findSession st sid).map f := by
  unfold findSession updateSessionRow
  exact find?_update_self sid f hf st.sessions

/-- A reap iteration of another session does not change `findSession`. -/
theorem findSession_reapStep_ne (stOrig : Store) (th : Nat)
    (acc : Store × List Nat) (c : ChatSession) (sid : Nat)
    (h : c.id ≠ sid) :
    findSession (reapStep stOrig th acc c).1 sid = findSession acc.1 sid := by
  unfold reapStep
  by_cases hi : reapInner stOrig th c = true
  · rw [if_pos hi]
    cases hca : c.assignedCsId with
    | none =>
        exact findSession_updateSessionRow_ne
          { acc.1 with clock := acc.1.clock + 1 } c.id sid _
          (fun _ => rfl) (Ne.symm h)
    | some uid =>
        exact findSession_updateSessionRow_ne
          { acc.1 with clock := acc.1.clock + 1 } c.id sid _
          (fun _ => rfl) (Ne.symm h)
  · rw [if_neg hi]

/-- A reap iteration of the session itself marks it abandoned. -/
theorem findSession_reapStep_self (stOrig : Store) (th : Nat)
    (acc : Store × List Nat) (c : ChatSession)
    (hi : reapInner stOrig th c = true) :
    findSession (reapStep stOrig th acc c).1 c.id =
      (findSession acc.1 c.id).map
        (fun x => { x with status := ChatStatus.abandoned,
                           resolvedAt := some acc.1.clock }) := by
  unfold reapStep
  rw [if_pos hi]
  cases hca : c.assignedCsId with
  | none =>
      exact findSession_updateSessionRow_self
        { acc.1 with clock := acc.1.clock + 1 } c.id _ (fun _ => rfl)
  | some uid =>
      exact findSession_updateSessionRow_self
        { acc.1 with clock := acc.1.clock + 1 } c.id _ (fun _ => rfl)

/-- Folding reap iterations of other sessions changes nothing at `sid`. -/
theorem findSession_reapFold_ne (stOrig : Store) (th sid : Nat) :
    ∀ (cands : List ChatSession) (acc : Store × List Nat),
      (∀ c ∈ cands, c.id ≠ sid) →
      findSession (cands.foldl (reapStep stOrig th) acc).1 sid =
        findSession acc.1 sid
  | [], _, _ => rfl
  | c :: cands, acc, h => by
      rw [List.foldl_cons]
      rw [findSession_reapFold_ne stOrig th sid cands _
        (fun x hx => h x (List.mem_cons_of_mem _ hx))]
      exact findSession_reapStep_ne stOrig th acc c sid
        (h c (List.mem_cons_self _ _))

/-- The ids component of a reap iteration. -/
theorem reapStep_ids (stOrig : Store) (th : Nat) (acc : Store × List Nat)
    (c : ChatSession) :
    (reapStep stOrig th acc c).2 =
      if reapInner stOrig th c then acc.2 ++ [c.id] else acc.2 := by
  unfold reapStep
  split <;> rfl

/-- The ids returned by the reap fold: exactly the candidates passing the
`reapInner` re-check, in order. -/
theorem reapFold_ids (stOrig : Store) (th : Nat) :
    ∀ (cands : List ChatSession) (acc : Store × List Nat),
      (cands.foldl (reapStep stOrig th) acc).2 =
        acc.2 ++ (cands.filter (reapInner stOrig th)).map (fun c => c.id)
  | [], acc => by simp
  | c :: cands, acc => by
      rw [List.foldl_cons, reapFold_ids stOrig th cands _]
      by_cases hi : reapInner stOrig th c = true
      · rw [List.filter_cons_of_pos hi, reapStep_ids, if_pos hi]
        simp [List.append_assoc]
      · rw [List.filter_cons_of_neg (by simpa using hi), reapStep_ids,
          if_neg (by simpa using hi)]

/-- Candidate ids inherit `Nodup` from the session table. -/
theorem nodup_idleCandidates_ids (st : Store) (th : Nat)
    (h : (st.sessions.map (fun s => s.id)).Nodup) :
    ((idleCandidates st th).map (fun s => s.id)).Nodup :=
  h.sublist (List.Sublist.map _ (List.filter_sublist _))

/-- Lemma: `foldl max` bound: the whole fold is below `c` iff seed and all
elements are. -/
theorem foldl_max_lt : ∀ (ts : List Nat) (t c : Nat),
    ts.foldl max t < c ↔ t < c ∧ ∀ x ∈ ts, x < c
  | [], t, c => by simp
  | x :: ts, t, c => by
      rw [List.foldl_cons, foldl_max_lt ts (max t x) c]
      constructor
      · rintro ⟨h1, h2⟩
        rcases Nat.max_lt.mp h1 with ⟨ht, hx⟩
        refine ⟨ht, fun y hy => ?_⟩
        rcases List.mem_cons.mp hy with rfl | hy'
        · exact hx
        · exact h2 y hy'
      · rintro ⟨h1, h2⟩
        exact ⟨Nat.max_lt.mpr ⟨h1, h2 x (List.mem_cons_self _ _)⟩,
          fun y hy => h2 y (List.mem_cons_of_mem _ hy)⟩

/-- The seed is below `foldl max`. -/
theorem le_foldl_max_init : ∀ (ts : List Nat) (t : Nat), t ≤ ts.foldl max t
  | [], t => le_refl t
  | x :: ts, t =>
      le_trans (Nat.le_max_left t x) (le_foldl_max_init ts (max t x))

/-- Every element is below `foldl max`. -/
theorem mem_le_foldl_max : ∀ (ts : List Nat) (t x : Nat),
    x ∈ ts → x ≤ ts.foldl max t
  | [], _, _, hx => absurd hx (List.not_mem_nil _)
  | y :: ts, t, x, hx => by
      rcases List.mem_cons.mp hx with rfl | hx'
      · exact le_trans (Nat.le_max_right t x)
          (le_foldl_max_init ts (max t x))
      · exact mem_le_foldl_max ts (max t y) x hx'

/-- Lemma: `lastMessageTime` is an upper bound of the transcript's timestamps,
and is itself below any bound on all of them. -/
theorem lastMessageTime_spec (st : Store) (sid : Nat) (L : Nat)
    (h : lastMessageTime st sid = some L) :
    (∀ m ∈ messagesOf st sid, m.createdAt ≤ L) ∧
    ∀ c : Nat,
      (messagesOf st sid).all (fun m => decide (m.createdAt < c)) = true →
      L < c := by
  unfold lastMessageTime at h
  cases hmap : (messagesOf st sid).map (fun m => m.createdAt) with
  | nil => rw [hmap] at h; cases h
  | cons t ts =>
      rw [hmap] at h
      have hL : L = ts.foldl max t := (Option.some.inj h).symm
      constructor
      · intro m hm
        have hmem : m.createdAt ∈ t :: ts :=
          hmap ▸ List.mem_map_of_mem _ hm
        rcases List.mem_cons.mp hmem with he | hmem'
        · rw [hL, he]; exact le_foldl_max_init ts t
        · rw [hL]; exact mem_le_foldl_max ts t _ hmem'
      · intro c hall
        have hall' : ∀ m ∈ messagesOf st sid, m.createdAt < c := by
          intro m hm
          exact of_decide_eq_true (List.all_eq_true.mp hall m hm)
        rw [hL, foldl_max_lt]
        constructor
        · have ht : t ∈ (messagesOf st sid).map (fun m => m.createdAt) := by
            rw [hmap]; exact List.mem_cons_self _ _
          obtain ⟨m, hm, hmt⟩ := List.mem_map.mp ht
          rw [← hmt]; exact hall' m hm
        · intro x hx
          have hx' : x ∈ (messagesOf st sid).map (fun m => m.createdAt) := by
            rw [hmap]; exact List.mem_cons_of_mem _ hx
          obtain ⟨m, hm, hmt⟩ := List.mem_map.mp hx'
          rw [← hmt]; exact hall' m hm

/-- C6 (amended): a reaper run abandons a waiting/active session with
last message at time `L` exactly when `L + idle_timeout < now` — the
comparison is strict, so a run at `now = L + idle_timeout` or earlier
leaves the session in its previous status. -/
theorem idle_reaper_strict_threshold (st : Store) (now timeout : Nat)
    (s : ChatSession) (L : Nat)
    (hnodup : (st.sessions.map (fun x => x.id)).Nodup)
    (hfind : findSession st s.id = some s)
    (hstatus : s.status = ChatStatus.waiting ∨
      s.status = ChatStatus.active)
    (hL : lastMessageTime st s.id = some L) :
    (s.id ∈ (checkIdleChats st now timeout).2 ↔ L + timeout < now) ∧
    statusOf (checkIdleChats st now timeout).1 s.id =
      some (if L + timeout < now then ChatStatus.abandoned
            else s.status) := by
  have hmem : s ∈ st.sessions := List.mem_of_find?_eq_some hfind
  have hspec := lastMessageTime_spec st s.id L hL
  have hinner : reapInner st (now - timeout) s =
      decide (L < now - timeout) := by
    unfold reapInner
    rw [hL]
  have hiff : L < now - timeout ↔ L + timeout < now := by omega
  have hstatB : (s.status == ChatStatus.waiting ||
      s.status == ChatStatus.active) = true := by
    rcases hstatus with h | h <;> rw [h] <;> rfl
  have hids : (checkIdleChats st now timeout).2 =
      ((idleCandidates st (now - timeout)).filter
        (reapInner st (now - timeout))).map (fun c => c.id) := by
    show ((idleCandidates st (now - timeout)).foldl
      (reapStep st (now - timeout)) (st, [])).2 = _
    rw [reapFold_ids]
    rfl
  have hst1 : (checkIdleChats st now timeout).1 =
      ((idleCandidates st (now - timeout)).foldl
        (reapStep st (now - timeout)) (st, [])).1 := rfl
  by_cases hcase : L < now - timeout
  · -- past the strict threshold: the session is reaped
    have hall : (messagesOf st s.id).all
        (fun m => decide (m.createdAt < now - timeout)) = true := by
      rw [List.all_eq_true]
      intro m hm
      exact decide_eq_true (lt_of_le_of_lt (hspec.1 m hm) hcase)
    have hcand : s ∈ idleCandidates st (now - timeout) := by
      unfold idleCandidates
      rw [List.mem_filter]
      refine ⟨hmem, ?_⟩
      show (_ && _) = true
      rw [hstatB, hall]
      rfl
    have hinT : reapInner st (now - timeout) s = true := by
      rw [hinner]; exact decide_eq_true hcase
    constructor
    · refine iff_of_true ?_ (hiff.mp hcase)
      rw [hids]
      exact List.mem_map_of_mem _ (List.mem_filter.mpr ⟨hcand, hinT⟩)
    · obtain ⟨l1, l2, hdecomp⟩ := List.append_of_mem hcand
      have hnodupC := nodup_idleCandidates_ids st (now - timeout) hnodup
      rw [hdecomp, List.map_append, List.map_cons,
        List.nodup_append] at hnodupC
      obtain ⟨hn1, hn2, hdisj⟩ := hnodupC
      have hl1 : ∀ c ∈ l1, c.id ≠ s.id := by
        intro c hc hceq
        exact hdisj (hceq ▸ List.mem_map_of_mem _ hc)
          (List.mem_cons_self _ _)
      have hl2 : ∀ c ∈ l2, c.id ≠ s.id := by
        intro c hc hceq
        exact (List.nodup_cons.mp hn2).1
          (hceq ▸ List.mem_map_of_mem _ hc)
      have hsplit : (idleCandidates st (now - timeout)).foldl
          (reapStep st (now - timeout)) (st, ([] : List Nat)) =
          l2.foldl (reapStep st (now - timeout))
            (reapStep st (now - timeout)
              (l1.foldl (reapStep st (now - timeout)) (st, [])) s) := by
        rw [hdecomp, List.foldl_append, List.foldl_cons]
      rw [if_pos (hiff.mp hcase)]
      unfold statusOf
      rw [hst1, hsplit]
      rw [findSession_reapFold_ne st (now - timeout) s.id l2 _ hl2]
      rw [findSession_reapStep_self st (now - timeout) _ s hinT]
      rw [findSession_reapFold_ne st (now - timeout) s.id l1 _ hl1]
      have hfind' : findSession (st, ([] : List Nat)).1 s.id = some s :=
        hfind
      rw [hfind']
      rfl
  · -- at or before the boundary: untouched
    have hnotcand : s ∉ idleCandidates st (now - timeout) := by
      intro hc
      unfold idleCandidates at hc
      rw [List.mem_filter] at hc
      have hand := hc.2
      rw [Bool.and_eq_true] at hand
      exact hcase (hspec.2 (now - timeout) hand.2)
    have hne : ∀ c ∈ idleCandidates st (now - timeout), c.id ≠ s.id := by
      intro c hc hceq
      have hcs : c ∈ st.sessions := by
        have hc' := hc
        unfold idleCandidates at hc'
        exact (List.mem_filter.mp hc').1
      have hcseq : c = s :=
        List.inj_on_of_nodup_map hnodup hcs hmem hceq
      exact hnotcand (hcseq ▸ hc)
    have hnm : ¬(L + timeout < now) := fun hlt => hcase (hiff.mpr hlt)
    constructor
    · refine iff_of_false ?_ hnm
      rw [hids]
      intro hmem'
      obtain ⟨c, hcf, hcid⟩ := List.mem_map.mp hmem'
      exact hne c (List.mem_filter.mp hcf).1 hcid
    · rw [if_neg hnm]
      unfold statusOf
      rw [hst1]
      rw [findSession_reapFold_ne st (now - timeout) s.id _ _ hne]
      have hfind' : findSession (st, ([] : List Nat)).1 s.id = some s :=
        hfind
      rw [hfind']
      rfl

/-- Witness for the amended C6: one tick past the boundary the session
is abandoned. -/
theorem idle_reaper_strict_threshold_witness :
    10 ∈ (checkIdleChats idleStore 1901 1800).2 ∧
    statusOf (checkIdleChats idleStore 1901 1800).1 10 =
      some ChatStatus.abandoned := by
  have h := idle_reaper_strict_threshold idleStore 1901 1800
    (activeSession 10 100 1 0) 100 (by decide) (by decide) (Or.inr rfl)
    (by decide)
  exact ⟨h.1.mpr (by decide), h.2.trans (by decide)⟩

end HeraDesk
